import Mathlib

/-!
# Omnichain Asset Bridge — relayer core, shallow embedding

Shallow embedding of the relayer core of the Omnichain-Asset-Bridge
repository, translated from:

* `relayer/src/db/index.js`          (RelayerDB: SQLite dedup table + block cursors)
* `relayer/src/listeners/lockListener.js`        (LockListener)
* `relayer/src/listeners/burnListener.js`        (BurnListener)
* `relayer/src/listeners/governanceListener.js`  (GovernanceListener)

Block numbers are JavaScript numbers holding exact small integers; they are
modelled as `Int` (the code subtracts them, e.g. `currentBlock - log.blockNumber`).
Event nonces are `uint256` values (`Nat`); the listeners convert them with
`Number(...)` before use, modelled by `jsNumber` (IEEE-754 round-half-to-even
at 53 significant bits, exact below `2^53`).

The destination chain (`mintWrapped` / `unlock` / `pauseBridge` followed by
`tx.wait()`) is abstracted by an outcome oracle `Nat → SubmitResult` giving the
result of each numbered attempt.  Log lines are reified as a `LogEntry`
inductive carrying the interpolated data.
-/

namespace Bridge

/-- A row of the `processed_events` SQLite table
(`nonce, chain, tx_hash, event_type`; primary key `(nonce, chain, event_type)`). -/
structure ProcRow where
  nonce : Nat
  chain : String
  txHash : String
  eventType : String
deriving DecidableEq, Repr

/-- The durable store: the `processed_events` table and the `block_cursors`
table (`chain PRIMARY KEY, last_block`). -/
structure DBState where
  processed : List ProcRow
  cursors : List (String × Int)
deriving DecidableEq, Repr

/-- `RelayerDB.isProcessed(nonce, chain, eventType)`:
`SELECT 1 FROM processed_events WHERE nonce = ? AND chain = ? AND event_type = ?`. -/
def isProcessed (db : DBState) (nonce : Nat) (chain eventType : String) : Bool :=
  db.processed.any fun r => r.nonce == nonce && r.chain == chain && r.eventType == eventType

/-- `RelayerDB.markProcessed(nonce, chain, txHash, eventType)`:
`INSERT OR IGNORE INTO processed_events ...` — a primary-key collision leaves
the existing row in place and succeeds silently. -/
def markProcessed (db : DBState) (nonce : Nat) (chain txHash eventType : String) : DBState :=
  if isProcessed db nonce chain eventType then db
  else { db with processed := db.processed ++ [⟨nonce, chain, txHash, eventType⟩] }

/-- `RelayerDB.getLastBlock(chain)`: returns the cursor row's `last_block`, or 0 if absent. -/
def getLastBlock (db : DBState) (chain : String) : Int :=
  match db.cursors.find? fun p => p.1 == chain with
  | some p => p.2
  | none => 0

/-- `RelayerDB.setLastBlock(chain, blockNumber)`:
`INSERT OR REPLACE INTO block_cursors ...` — unconditional upsert. -/
def setLastBlock (db : DBState) (chain : String) (blockNumber : Int) : DBState :=
  { db with cursors := (chain, blockNumber) :: db.cursors.filter fun p => p.1 != chain }

/-- Number of `processed_events` rows with a given primary key — invariant I1
says this is at most 1. -/
def keyCount (db : DBState) (nonce : Nat) (chain eventType : String) : Nat :=
  (db.processed.filter fun r =>
    r.nonce == nonce && r.chain == chain && r.eventType == eventType).length

/-- Fuel-bounded floor base-2 logarithm; structural recursion on the fuel so
the kernel can evaluate it.  `log2Fuel f n = ⌊log₂ n⌋` whenever `f ≥ n ≥ 1`. -/
def log2Fuel : Nat → Nat → Nat
  | 0, _ => 0
  | f + 1, n => if n ≥ 2 then log2Fuel f (n / 2) + 1 else 0

/-- `Number(bigint)` on a non-negative integer below the overflow threshold:
IEEE-754 binary64 rounding, i.e. round to the nearest multiple of the unit in
the last place (2^(⌊log₂ n⌋ - 52) once n ≥ 2^53), ties to the even quotient.
Exact for n < 2^53. -/
def jsNumber (n : Nat) : Nat :=
  if n < 2 ^ 53 then n
  else
    let u := 2 ^ (log2Fuel n n - 52)
    let q := n / u
    let r := n % u
    if 2 * r < u then q * u
    else if 2 * r > u then (q + 1) * u
    else if q % 2 = 0 then q * u else (q + 1) * u

/-- `const MAX_RETRIES = 3` (lockListener / burnListener / governanceListener). -/
def MAX_RETRIES : Nat := 3

/-- `const RETRY_DELAY_MS = 2000`. -/
def RETRY_DELAY_MS : Nat := 2000

/-- Log lines emitted by the listeners, reified with their interpolated data. -/
inductive LogEntry where
  | recoveryScan (fromBlock toBlock : Int)
  | notYetConfirmed (key : Nat)
  | alreadyProcessed (key : Nat)
  | processing (key : Nat)
  | processingProposal (pid : Nat) (selector : String)
  | unknownSelector (selector : String)
  | attemptFailed (attempt : Nat) (msg : String)
  | submitSuccess (key : Nat) (txHash : String)
  | criticalAbandon (key : Nat)
deriving DecidableEq, Repr

/-- A decoded `Locked` / `Burned` event log: block number plus the parsed
`(user, amount, nonce)` arguments (`nonce` is the raw `uint256`). -/
structure EventLog where
  blockNumber : Int
  user : String
  amount : Nat
  nonce : Nat
deriving DecidableEq, Repr

/-- Result of one destination submission attempt
(`await dest(...)` followed by `await tx.wait()`): either a mined receipt with
its hash, or a thrown error with its message. -/
inductive SubmitResult where
  | success (txHash : String)
  | failure (msg : String)
deriving DecidableEq, Repr

/-- Observable outcome of running a handler: the final store, the destination
submit invocations (by dedup key, one entry per attempt), the sleeps performed,
the log lines, and the values written to this stream's cursor, in order. -/
structure HandleResult where
  db : DBState
  calls : List Nat
  sleepsMs : List Nat
  logs : List LogEntry
  cursorWrites : List Int
deriving DecidableEq, Repr

/-- The per-pipeline constants: stream cursor key, dedup chain key, event kind,
and the configured confirmation depth. -/
structure ListenerCfg where
  streamKey : String
  chainKey : String
  evKind : String
  confirmationDepth : Int
deriving DecidableEq, Repr

/-- The LockListener instance: stream `chainA_lock`, dedup rows
`(nonce, "chainA", _, "Locked")`. -/
def lockCfg (depth : Int) : ListenerCfg :=
  ⟨"chainA_lock", "chainA", "Locked", depth⟩

/-- The BurnListener instance: stream `chainB_burn`, dedup rows
`(nonce, "chainB", _, "Burned")`. -/
def burnCfg (depth : Int) : ListenerCfg :=
  ⟨"chainB_burn", "chainB", "Burned", depth⟩

/-- The body of the submission retry loop shared by all three listeners,
recursing on `remaining`, the number of loop iterations still allowed
(including the current one); `attempt` is the current attempt number used in
the log lines.  The canonical entry point `submitLoop` starts it at
`attempt = 1`, `remaining = MAX_RETRIES`, so "this is not the last iteration"
(`attempt < MAX_RETRIES` in the JS loop) is exactly `remaining > 1`. -/
def submitLoopAux (cfg : ListenerCfg) (key : Nat) (eventBlock : Int)
    (outcome : Nat → SubmitResult) : Nat → Nat → DBState → HandleResult
  | _, 0, db =>
      { db := db, calls := [], sleepsMs := [], logs := [], cursorWrites := [] }
  | attempt, remaining + 1, db =>
      match outcome attempt with
      | .success h =>
          let db1 := markProcessed db key cfg.chainKey h cfg.evKind
          let db2 := setLastBlock db1 cfg.streamKey eventBlock
          { db := db2, calls := [key], sleepsMs := [],
            logs := [.submitSuccess key h], cursorWrites := [eventBlock] }
      | .failure msg =>
          if remaining > 0 then
            let rest := submitLoopAux cfg key eventBlock outcome (attempt + 1) remaining db
            { db := rest.db, calls := key :: rest.calls,
              sleepsMs := RETRY_DELAY_MS :: rest.sleepsMs,
              logs := .attemptFailed attempt msg :: rest.logs,
              cursorWrites := rest.cursorWrites }
          else
            { db := db, calls := [key], sleepsMs := [],
              logs := [.attemptFailed attempt msg, .criticalAbandon key],
              cursorWrites := [] }

/-- The submission retry loop:
`for (attempt = 1; attempt <= MAX_RETRIES; attempt++) { try { submit; wait;
markProcessed; setLastBlock; return } catch { log; if (attempt < MAX_RETRIES)
sleep(RETRY_DELAY_MS) else log CRITICAL } }`.  `outcome k` is the result of
attempt number `k`. -/
def submitLoop (cfg : ListenerCfg) (key : Nat) (eventBlock : Int)
    (outcome : Nat → SubmitResult) (db : DBState) : HandleResult :=
  submitLoopAux cfg key eventBlock outcome 1 MAX_RETRIES db

/-- `_handleEvent(event, currentBlock)` of LockListener / BurnListener:
parse the log, convert the nonce with `Number(...)`, run the confirmation
check, the replay check, then the retry loop. -/
def handleEvent (cfg : ListenerCfg) (db : DBState) (ev : EventLog)
    (currentBlock : Int) (outcome : Nat → SubmitResult) : HandleResult :=
  let nonce := jsNumber ev.nonce
  if currentBlock - ev.blockNumber < cfg.confirmationDepth then
    { db := db, calls := [], sleepsMs := [],
      logs := [.notYetConfirmed nonce], cursorWrites := [] }
  else if isProcessed db nonce cfg.chainKey cfg.evKind then
    { db := db, calls := [], sleepsMs := [],
      logs := [.alreadyProcessed nonce], cursorWrites := [] }
  else
    let r := submitLoop cfg nonce ev.blockNumber outcome db
    { r with logs := .processing nonce :: r.logs }

/-- The `for (const event of events) await this._handleEvent(event, currentBlock)`
loop inside `recoverMissedEvents`, threading the store through and
concatenating the observables.  `outcome e` is the attempt oracle for event `e`. -/
def processAll (cfg : ListenerCfg) (db : DBState) (currentBlock : Int)
    (outcome : EventLog → Nat → SubmitResult) : List EventLog → HandleResult
  | [] => { db := db, calls := [], sleepsMs := [], logs := [], cursorWrites := [] }
  | e :: rest =>
      let r := handleEvent cfg db e currentBlock (outcome e)
      let rr := processAll cfg r.db currentBlock outcome rest
      { db := rr.db, calls := r.calls ++ rr.calls,
        sleepsMs := r.sleepsMs ++ rr.sleepsMs, logs := r.logs ++ rr.logs,
        cursorWrites := r.cursorWrites ++ rr.cursorWrites }

/-- `recoverMissedEvents()`: read the cursor, read the head; no-op when
`lastBlock >= currentBlock`; otherwise handle every event `queryFilter`
returned for `lastBlock+1 .. currentBlock` (the `events` argument abstracts
that RPC result), then `setLastBlock(streamKey, currentBlock)`. -/
def recoverMissedEvents (cfg : ListenerCfg) (db : DBState) (currentBlock : Int)
    (events : List EventLog) (outcome : EventLog → Nat → SubmitResult) : HandleResult :=
  let lastBlock := getLastBlock db cfg.streamKey
  if lastBlock ≥ currentBlock then
    { db := db, calls := [], sleepsMs := [], logs := [], cursorWrites := [] }
  else
    let r := processAll cfg db currentBlock outcome events
    { db := setLastBlock r.db cfg.streamKey currentBlock, calls := r.calls,
      sleepsMs := r.sleepsMs,
      logs := .recoveryScan (lastBlock + 1) currentBlock :: r.logs,
      cursorWrites := r.cursorWrites ++ [currentBlock] }

/-- `_waitForConfirmation(eventLog)`: poll `getBlockNumber()` (the oracle
`heads`, sampled at poll `i`, `i+1`, ...) until
`currentBlock >= eventLog.blockNumber + confirmationDepth`, then
`_handleEvent(eventLog, currentBlock)`.  `fuel` bounds the number of polls so
the loop is total; `none` means the loop was still waiting. -/
def waitForConfirmation (cfg : ListenerCfg) (heads : Nat → Int) (db : DBState)
    (ev : EventLog) (outcome : Nat → SubmitResult) :
    Nat → Nat → Option HandleResult
  | 0, _ => none
  | fuel + 1, i =>
      if heads i ≥ ev.blockNumber + cfg.confirmationDepth then
        some (handleEvent cfg db ev (heads i) outcome)
      else
        waitForConfirmation cfg heads db ev outcome fuel (i + 1)

/-- A decoded `ProposalPassed` event log: block number plus the parsed
`(proposalId, data)` arguments (`data` is the 0x-prefixed hex calldata string). -/
structure GovEvent where
  blockNumber : Int
  proposalId : Nat
  data : String
deriving DecidableEq, Repr

/-- The GovernanceListener instance: stream `chainB_governance`, dedup rows
`(proposalId, "chainB", _, "ProposalPassed")`. -/
def govCfg (depth : Int) : ListenerCfg :=
  ⟨"chainB_governance", "chainB", "ProposalPassed", depth⟩

/-- `const pauseSelector = "0x6b9a13e3"` — the only entry of the governance
selector dispatch table. -/
def pauseSelector : String := "0x6b9a13e3"

/-- `GovernanceListener._handleEvent(event, currentBlock)`: confirmation check,
replay check, then `selector = data.slice(0, 10)` and dispatch — the pause
selector enters `_executePauseBridge` (the shared retry loop); any other
selector is logged and the handler returns. -/
def govHandleEvent (depth : Int) (db : DBState) (ev : GovEvent)
    (currentBlock : Int) (outcome : Nat → SubmitResult) : HandleResult :=
  let cfg := govCfg depth
  let pid := jsNumber ev.proposalId
  if currentBlock - ev.blockNumber < depth then
    { db := db, calls := [], sleepsMs := [],
      logs := [.notYetConfirmed pid], cursorWrites := [] }
  else if isProcessed db pid cfg.chainKey cfg.evKind then
    { db := db, calls := [], sleepsMs := [],
      logs := [.alreadyProcessed pid], cursorWrites := [] }
  else
    let selector := ev.data.take 10
    if selector = pauseSelector then
      let r := submitLoop cfg pid ev.blockNumber outcome db
      { r with logs := .processingProposal pid selector :: r.logs }
    else
      { db := db, calls := [], sleepsMs := [],
        logs := [.processingProposal pid selector, .unknownSelector selector],
        cursorWrites := [] }

/-- The event loop of `GovernanceListener.recoverMissedEvents`. -/
def govProcessAll (depth : Int) (db : DBState) (currentBlock : Int)
    (outcome : GovEvent → Nat → SubmitResult) : List GovEvent → HandleResult
  | [] => { db := db, calls := [], sleepsMs := [], logs := [], cursorWrites := [] }
  | e :: rest =>
      let r := govHandleEvent depth db e currentBlock (outcome e)
      let rr := govProcessAll depth r.db currentBlock outcome rest
      { db := rr.db, calls := r.calls ++ rr.calls,
        sleepsMs := r.sleepsMs ++ rr.sleepsMs, logs := r.logs ++ rr.logs,
        cursorWrites := r.cursorWrites ++ rr.cursorWrites }

/-- `GovernanceListener.recoverMissedEvents()`: same shape as the lock/burn
recovery pass, over `ProposalPassed` events. -/
def govRecoverMissedEvents (depth : Int) (db : DBState) (currentBlock : Int)
    (events : List GovEvent) (outcome : GovEvent → Nat → SubmitResult) : HandleResult :=
  let cfg := govCfg depth
  let lastBlock := getLastBlock db cfg.streamKey
  if lastBlock ≥ currentBlock then
    { db := db, calls := [], sleepsMs := [], logs := [], cursorWrites := [] }
  else
    let r := govProcessAll depth db currentBlock outcome events
    { db := setLastBlock r.db cfg.streamKey currentBlock, calls := r.calls,
      sleepsMs := r.sleepsMs,
      logs := .recoveryScan (lastBlock + 1) currentBlock :: r.logs,
      cursorWrites := r.cursorWrites ++ [currentBlock] }

/-! ## Concrete values used in witnesses -/

/-- A sample destination transaction hash. -/
def hashA : String := "0xaa"

/-- Another sample destination transaction hash. -/
def hashB : String := "0xbb"

/-- A sample user address string. -/
def userU : String := "u"

/-- A generic submission error message. -/
def boomMsg : String := "boom"

/-- The error message of a `NonceAlreadyProcessed(0)` destination revert. -/
def nonceRevertMsg : String := "execution reverted: NonceAlreadyProcessed(0)"

/-- The calldata of test scenario 6: an unknown governance selector. -/
def deadbeefData : String := "0xdeadbeefcafebabe"

/-! ## Helper lemmas about the store -/

/-- After `markProcessed`, the key is present. -/
lemma isProcessed_markProcessed_self (db : DBState) (n : Nat) (c h k : String) :
    isProcessed (markProcessed db n c h k) n c k = true := by
  by_cases hp : isProcessed db n c k
  · rw [markProcessed, if_pos hp]
    exact hp
  · rw [markProcessed, if_neg hp]
    simp only [isProcessed, List.any_eq_true]
    exact ⟨⟨n, c, h, k⟩, by simp, by simp⟩

/-- `setLastBlock` does not touch the `processed_events` table. -/
lemma processed_setLastBlock (db : DBState) (s : String) (b : Int) :
    (setLastBlock db s b).processed = db.processed := rfl

/-- `isProcessed` is unaffected by cursor writes. -/
lemma isProcessed_setLastBlock (db : DBState) (s : String) (b : Int)
    (n : Nat) (c k : String) :
    isProcessed (setLastBlock db s b) n c k = isProcessed db n c k := rfl

/-- An absent key has zero rows. -/
lemma keyCount_eq_zero (db : DBState) (n : Nat) (c k : String)
    (h : isProcessed db n c k = false) : keyCount db n c k = 0 := by
  unfold isProcessed at h
  unfold keyCount
  simp only [List.length_eq_zero, List.filter_eq_nil_iff]
  intro r hr
  have := List.any_eq_false.mp h r hr
  simpa using this

/-! ## C7 — markProcessed is an idempotent insert-if-absent -/

/-- C7: `markProcessed` is insert-if-absent: a second call with the same
`(nonce, chain, event_type)` key leaves the table exactly as after the first
call (so the first row's `tx_hash` is retained and the second call is a silent
no-op), `isProcessed` holds afterwards, and a table with at most one row per
key keeps at most one row per key. -/
theorem markProcessed_insert_if_absent_idempotent
    (db : DBState) (n : Nat) (c h₁ h₂ k : String)
    (hcount : keyCount db n c k ≤ 1) :
    markProcessed (markProcessed db n c h₁ k) n c h₂ k = markProcessed db n c h₁ k
    ∧ isProcessed (markProcessed db n c h₁ k) n c k = true
    ∧ keyCount (markProcessed db n c h₁ k) n c k ≤ 1 := by
  have hmem := isProcessed_markProcessed_self db n c h₁ k
  refine ⟨?_, hmem, ?_⟩
  · conv_lhs => rw [markProcessed.eq_def]
    rw [if_pos hmem]
  · by_cases hp : isProcessed db n c k
    · rw [markProcessed, if_pos hp]
      exact hcount
    · have h0 : (db.processed.filter fun r =>
          r.nonce == n && r.chain == c && r.eventType == k).length = 0 :=
        keyCount_eq_zero db n c k (Bool.not_eq_true _ ▸ hp)
      rw [markProcessed, if_neg hp]
      unfold keyCount
      simp [List.filter_append, h0]

/-- Witness for C7 at a concrete store. -/
theorem markProcessed_insert_if_absent_idempotent_witness :
    markProcessed (markProcessed ⟨[], []⟩ 0 (lockCfg 3).chainKey hashA (lockCfg 3).evKind)
        0 (lockCfg 3).chainKey hashB (lockCfg 3).evKind
      = markProcessed ⟨[], []⟩ 0 (lockCfg 3).chainKey hashA (lockCfg 3).evKind :=
  (markProcessed_insert_if_absent_idempotent ⟨[], []⟩ 0 (lockCfg 3).chainKey hashA hashB
    (lockCfg 3).evKind (by decide)).1

/-! ## C4 — confirmation check: proceed iff `H − B ≥ D` -/

/-- C4: the handler takes the "not yet confirmed" early return exactly when
`H − B < D` (i.e. it proceeds past the confirmation check iff `H − B ≥ D`);
an event exactly at `head − D` passes the check, while one at `head − D + 1`
is logged as not yet confirmed and the handler stops. -/
theorem confirmation_check_iff (cfg : ListenerCfg) (db : DBState) (ev : EventLog)
    (H : Int) (o : Nat → SubmitResult) (_hD : 0 ≤ cfg.confirmationDepth) :
    (∀ B : Int,
      ((handleEvent cfg db { ev with blockNumber := B } H o).logs.head? =
        some (.notYetConfirmed (jsNumber ev.nonce)) ↔ H - B < cfg.confirmationDepth))
    ∧ (handleEvent cfg db { ev with blockNumber := H - cfg.confirmationDepth } H o).logs.head?
        ≠ some (.notYetConfirmed (jsNumber ev.nonce))
    ∧ (handleEvent cfg db { ev with blockNumber := H - cfg.confirmationDepth + 1 } H o).logs.head?
        = some (.notYetConfirmed (jsNumber ev.nonce)) := by
  have key : ∀ B : Int,
      ((handleEvent cfg db { ev with blockNumber := B } H o).logs.head? =
        some (.notYetConfirmed (jsNumber ev.nonce)) ↔ H - B < cfg.confirmationDepth) := by
    intro B
    by_cases hc : H - B < cfg.confirmationDepth
    · simp [handleEvent, hc]
    · by_cases hp : isProcessed db (jsNumber ev.nonce) cfg.chainKey cfg.evKind
      · simp [handleEvent, hc, hp]
      · simp [handleEvent, hc, hp]
  refine ⟨key, ?_, ?_⟩
  · intro hbad
    have := (key (H - cfg.confirmationDepth)).mp hbad
    omega
  · exact (key (H - cfg.confirmationDepth + 1)).mpr (by omega)

/-- Witness for C4 at a concrete configuration (depth 3, head 10):
the event at block `10 − 3 + 1 = 8` is reported not yet confirmed. -/
theorem confirmation_check_iff_witness :
    (handleEvent (lockCfg 3) ⟨[], []⟩
        { blockNumber := 10 - (3 : Int) + 1, user := userU, amount := 5, nonce := 0 } 10
        (fun _ => .success hashA)).logs.head?
      = some (.notYetConfirmed (jsNumber 0)) := by
  have h := (confirmation_check_iff (lockCfg 3) ⟨[], []⟩
      ⟨0, userU, 5, 0⟩ 10 (fun _ => .success hashA) (by decide)).2.2
  simpa using h

/-! ## C1 — replay rejection: the second `_handleEvent` is a no-op -/

/-- Shape of a successful first-attempt submission. -/
lemma handleEvent_success (cfg : ListenerCfg) (db : DBState) (ev : EventLog)
    (H : Int) (o : Nat → SubmitResult) (txh : String)
    (hconf : cfg.confirmationDepth ≤ H - ev.blockNumber)
    (hnew : isProcessed db (jsNumber ev.nonce) cfg.chainKey cfg.evKind = false)
    (hsucc : o 1 = .success txh) :
    handleEvent cfg db ev H o =
      { db := setLastBlock
          (markProcessed db (jsNumber ev.nonce) cfg.chainKey txh cfg.evKind)
          cfg.streamKey ev.blockNumber,
        calls := [jsNumber ev.nonce], sleepsMs := [],
        logs := [.processing (jsNumber ev.nonce), .submitSuccess (jsNumber ev.nonce) txh],
        cursorWrites := [ev.blockNumber] } := by
  have hc : ¬ (H - ev.blockNumber < cfg.confirmationDepth) := by omega
  simp [handleEvent, hc, hnew, submitLoop, MAX_RETRIES, submitLoopAux, hsucc]

/-- Shape of a handler run on an already-processed key. -/
lemma handleEvent_already (cfg : ListenerCfg) (db : DBState) (ev : EventLog)
    (H : Int) (o : Nat → SubmitResult)
    (hconf : cfg.confirmationDepth ≤ H - ev.blockNumber)
    (hdone : isProcessed db (jsNumber ev.nonce) cfg.chainKey cfg.evKind = true) :
    handleEvent cfg db ev H o =
      { db := db, calls := [], sleepsMs := [],
        logs := [.alreadyProcessed (jsNumber ev.nonce)], cursorWrites := [] } := by
  have hc : ¬ (H - ev.blockNumber < cfg.confirmationDepth) := by omega
  simp [handleEvent, hc, hdone]

/-- C1: with the head at least `D` past the event block, feeding the same
event twice into `_handleEvent` submits exactly once: the first call invokes
the destination and writes the ProcessedMark, the second call returns early at
the `isProcessed` check with no destination call and no state change, so the
destination is invoked with this event's nonce exactly once across both calls. -/
theorem handleEvent_replay_noop (cfg : ListenerCfg) (db : DBState) (ev : EventLog)
    (H : Int) (o₁ o₂ : Nat → SubmitResult) (txh : String)
    (hconf : cfg.confirmationDepth ≤ H - ev.blockNumber)
    (hnew : isProcessed db (jsNumber ev.nonce) cfg.chainKey cfg.evKind = false)
    (hsucc : o₁ 1 = .success txh) :
    (handleEvent cfg db ev H o₁).calls = [jsNumber ev.nonce]
    ∧ isProcessed (handleEvent cfg db ev H o₁).db
        (jsNumber ev.nonce) cfg.chainKey cfg.evKind = true
    ∧ (handleEvent cfg (handleEvent cfg db ev H o₁).db ev H o₂).calls = []
    ∧ (handleEvent cfg (handleEvent cfg db ev H o₁).db ev H o₂).db
        = (handleEvent cfg db ev H o₁).db
    ∧ (handleEvent cfg (handleEvent cfg db ev H o₁).db ev H o₂).logs
        = [.alreadyProcessed (jsNumber ev.nonce)]
    ∧ ((handleEvent cfg db ev H o₁).calls
        ++ (handleEvent cfg (handleEvent cfg db ev H o₁).db ev H o₂).calls).count
          (jsNumber ev.nonce) = 1 := by
  have h1 := handleEvent_success cfg db ev H o₁ txh hconf hnew hsucc
  have hc : ¬ (H - ev.blockNumber < cfg.confirmationDepth) := by omega
  have hdone : isProcessed (handleEvent cfg db ev H o₁).db
      (jsNumber ev.nonce) cfg.chainKey cfg.evKind = true := by
    rw [h1]
    rw [isProcessed_setLastBlock]
    exact isProcessed_markProcessed_self _ _ _ _ _
  have h2 := handleEvent_already cfg (handleEvent cfg db ev H o₁).db ev H o₂ hconf hdone
  refine ⟨by rw [h1], hdone, by rw [h2], by rw [h2], by rw [h2], ?_⟩
  rw [h2, h1]
  simp

/-- Witness for C1: depth 3, event at block 1, head 10, empty store,
destination succeeding. -/
theorem handleEvent_replay_noop_witness :
    (handleEvent (lockCfg 3)
      (handleEvent (lockCfg 3) ⟨[], []⟩ ⟨1, userU, 100, 0⟩ 10 (fun _ => .success hashA)).db
      ⟨1, userU, 100, 0⟩ 10 (fun _ => .success hashB)).calls = [] :=
  (handleEvent_replay_noop (lockCfg 3) ⟨[], []⟩ ⟨1, userU, 100, 0⟩ 10
    (fun _ => .success hashA) (fun _ => .success hashB) hashA
    (by decide) (by decide) rfl).2.2.1

/-! ## Retry loop with all attempts failing (shared by C2 and C3) -/

/-- When every attempt fails, the retry loop makes exactly `MAX_RETRIES = 3`
destination invocations separated by two `RETRY_DELAY_MS = 2000` ms sleeps,
logs the three warnings then the critical abandonment, and leaves the store
untouched: no ProcessedMark, no cursor write. -/
lemma submitLoop_allFail (cfg : ListenerCfg) (key : Nat) (b : Int)
    (o : Nat → SubmitResult) (db : DBState) (m₁ m₂ m₃ : String)
    (h1 : o 1 = .failure m₁) (h2 : o 2 = .failure m₂) (h3 : o 3 = .failure m₃) :
    submitLoop cfg key b o db =
      { db := db, calls := [key, key, key],
        sleepsMs := [RETRY_DELAY_MS, RETRY_DELAY_MS],
        logs := [.attemptFailed 1 m₁, .attemptFailed 2 m₂, .attemptFailed 3 m₃,
                 .criticalAbandon key],
        cursorWrites := [] } := by
  simp [submitLoop, MAX_RETRIES, submitLoopAux, h1, h2, h3]

/-- Shape of a handler run whose every submission attempt fails. -/
lemma handleEvent_allFail (cfg : ListenerCfg) (db : DBState) (ev : EventLog)
    (H : Int) (o : Nat → SubmitResult) (m₁ m₂ m₃ : String)
    (hconf : cfg.confirmationDepth ≤ H - ev.blockNumber)
    (hnew : isProcessed db (jsNumber ev.nonce) cfg.chainKey cfg.evKind = false)
    (h1 : o 1 = .failure m₁) (h2 : o 2 = .failure m₂) (h3 : o 3 = .failure m₃) :
    handleEvent cfg db ev H o =
      { db := db, calls := [jsNumber ev.nonce, jsNumber ev.nonce, jsNumber ev.nonce],
        sleepsMs := [RETRY_DELAY_MS, RETRY_DELAY_MS],
        logs := [.processing (jsNumber ev.nonce),
                 .attemptFailed 1 m₁, .attemptFailed 2 m₂, .attemptFailed 3 m₃,
                 .criticalAbandon (jsNumber ev.nonce)],
        cursorWrites := [] } := by
  have hc : ¬ (H - ev.blockNumber < cfg.confirmationDepth) := by omega
  rw [handleEvent]
  simp only [hc, if_false, hnew, Bool.false_eq_true, if_true]
  rw [submitLoop_allFail cfg _ _ o db m₁ m₂ m₃ h1 h2 h3]

/-- Reading a stream's cursor right after writing it returns the written value. -/
lemma getLastBlock_setLastBlock (db : DBState) (s : String) (b : Int) :
    getLastBlock (setLastBlock db s b) s = b := by
  simp [getLastBlock, setLastBlock]

/-! ## C2 — `NonceAlreadyProcessed` reverts are NOT treated as success -/

/-- Counterexample to C2: an event whose every submission attempt throws the
`NonceAlreadyProcessed` revert ends with the store exactly as before — no
ProcessedMark is written (with or without an empty tx-hash marker) and no
cursor write happens, contrary to the claim that the pipeline treats this
revert as success. -/
theorem nonce_revert_no_mark_counterexample :
    (handleEvent (lockCfg 3) ⟨[], []⟩ ⟨1, userU, 100, 0⟩ 10
        (fun _ => .failure nonceRevertMsg)).db = ⟨[], []⟩
    ∧ isProcessed (handleEvent (lockCfg 3) ⟨[], []⟩ ⟨1, userU, 100, 0⟩ 10
        (fun _ => .failure nonceRevertMsg)).db 0 (lockCfg 3).chainKey (lockCfg 3).evKind = false
    ∧ (handleEvent (lockCfg 3) ⟨[], []⟩ ⟨1, userU, 100, 0⟩ 10
        (fun _ => .failure nonceRevertMsg)).cursorWrites = [] := by
  decide

/-- C2 (amended): the catch block never inspects the error, so a
`NonceAlreadyProcessed` revert is handled like any other submission failure:
the loop retries it up to 3 times and after the 3rd failure returns with no
ProcessedMark written and no cursor write — dedup of a resubmitted nonce rests
on the destination contract's replay map, not on a local mark. -/
theorem nonce_revert_not_special_cased (cfg : ListenerCfg) (db : DBState)
    (ev : EventLog) (H : Int) (o : Nat → SubmitResult) (m₁ m₂ m₃ : String)
    (hconf : cfg.confirmationDepth ≤ H - ev.blockNumber)
    (hnew : isProcessed db (jsNumber ev.nonce) cfg.chainKey cfg.evKind = false)
    (h1 : o 1 = .failure m₁) (h2 : o 2 = .failure m₂) (h3 : o 3 = .failure m₃) :
    (handleEvent cfg db ev H o).db = db
    ∧ isProcessed (handleEvent cfg db ev H o).db
        (jsNumber ev.nonce) cfg.chainKey cfg.evKind = false
    ∧ (handleEvent cfg db ev H o).cursorWrites = []
    ∧ (handleEvent cfg db ev H o).calls.length = MAX_RETRIES := by
  rw [handleEvent_allFail cfg db ev H o m₁ m₂ m₃ hconf hnew h1 h2 h3]
  exact ⟨rfl, hnew, rfl, rfl⟩

/-- Witness for the amended C2 at the concrete `NonceAlreadyProcessed` revert. -/
theorem nonce_revert_not_special_cased_witness :
    (handleEvent (lockCfg 3) ⟨[], []⟩ ⟨1, userU, 100, 0⟩ 10
        (fun _ => .failure nonceRevertMsg)).db = ⟨[], []⟩ :=
  (nonce_revert_not_special_cased (lockCfg 3) ⟨[], []⟩ ⟨1, userU, 100, 0⟩ 10
    (fun _ => .failure nonceRevertMsg) nonceRevertMsg nonceRevertMsg nonceRevertMsg
    (by decide) (by decide) rfl rfl rfl).1

/-! ## C3 — retry exhaustion: 3 attempts, 2 s sleeps, critical log, no mark;
but a recovery pass still advances the cursor past the failed event -/

/-- Counterexample to C3: a recovery pass over blocks 1..10 containing one
event at block 1 whose every submission attempt fails ends with the
`chainA_lock` cursor at 10 — past the failed event's block — and no
ProcessedMark, so the event is NOT eligible for retry on the next recovery
pass, contrary to the claim's final clause. -/
theorem retry_exhaustion_cursor_counterexample :
    getLastBlock (recoverMissedEvents (lockCfg 3) ⟨[], []⟩ 10 [⟨1, userU, 100, 0⟩]
        (fun _ _ => .failure boomMsg)).db (lockCfg 3).streamKey = 10
    ∧ isProcessed (recoverMissedEvents (lockCfg 3) ⟨[], []⟩ 10 [⟨1, userU, 100, 0⟩]
        (fun _ _ => .failure boomMsg)).db 0 (lockCfg 3).chainKey (lockCfg 3).evKind = false
    ∧ (1 : Int) < 10 := by
  decide

/-- C3 (amended): for every event whose submission fails on all attempts, the
retry loop makes exactly `MAX_RETRIES = 3` attempts separated by
`RETRY_DELAY_MS = 2000` ms sleeps, logs at critical and returns without
writing a ProcessedMark and without any cursor write of its own; however, a
recovery pass containing the event still finishes with
`setLastBlock(streamId, currentBlock)`, advancing the cursor to the scanned
head, past the failed event — so the event is not re-observed by a later
recovery pass. -/
theorem retry_exhaustion_behavior (cfg : ListenerCfg) (db : DBState)
    (ev : EventLog) (H : Int) (o : Nat → SubmitResult) (m₁ m₂ m₃ : String)
    (hconf : cfg.confirmationDepth ≤ H - ev.blockNumber)
    (hnew : isProcessed db (jsNumber ev.nonce) cfg.chainKey cfg.evKind = false)
    (h1 : o 1 = .failure m₁) (h2 : o 2 = .failure m₂) (h3 : o 3 = .failure m₃) :
    (handleEvent cfg db ev H o).calls = List.replicate MAX_RETRIES (jsNumber ev.nonce)
    ∧ (handleEvent cfg db ev H o).sleepsMs = [RETRY_DELAY_MS, RETRY_DELAY_MS]
    ∧ (handleEvent cfg db ev H o).logs.getLast? =
        some (.criticalAbandon (jsNumber ev.nonce))
    ∧ (handleEvent cfg db ev H o).db = db
    ∧ (handleEvent cfg db ev H o).cursorWrites = []
    ∧ (getLastBlock db cfg.streamKey < H →
        getLastBlock (recoverMissedEvents cfg db H [ev] (fun _ => o)).db
          cfg.streamKey = H) := by
  rw [handleEvent_allFail cfg db ev H o m₁ m₂ m₃ hconf hnew h1 h2 h3]
  refine ⟨by rfl, rfl, rfl, rfl, rfl, ?_⟩
  intro hcur
  rw [recoverMissedEvents]
  simp only [not_le.mpr hcur, ge_iff_le, if_neg (not_le.mpr hcur)]
  exact getLastBlock_setLastBlock _ _ _

/-- Witness for the amended C3 at a concrete failing event. -/
theorem retry_exhaustion_behavior_witness :
    (handleEvent (lockCfg 3) ⟨[], []⟩ ⟨1, userU, 100, 0⟩ 10
        (fun _ => .failure boomMsg)).sleepsMs = [RETRY_DELAY_MS, RETRY_DELAY_MS] :=
  (retry_exhaustion_behavior (lockCfg 3) ⟨[], []⟩ ⟨1, userU, 100, 0⟩ 10
    (fun _ => .failure boomMsg) boomMsg boomMsg boomMsg
    (by decide) (by decide) rfl rfl rfl).2.1

/-! ## C5 — unknown governance selector: logged and skipped, but NOT marked -/

/-- Counterexample to C5: a confirmed `ProposalPassed` with calldata
`0xdeadbeef...` makes no destination call and logs the unknown selector, but
writes NO ProcessedMark — `isProcessed` is still false afterwards, contrary to
the claim that the proposal is marked so it is not revisited. -/
theorem unknown_selector_no_mark_counterexample :
    (govHandleEvent 3 ⟨[], []⟩ ⟨200, 1, deadbeefData⟩ 210 (fun _ => .success hashA)).calls = []
    ∧ (govHandleEvent 3 ⟨[], []⟩ ⟨200, 1, deadbeefData⟩ 210 (fun _ => .success hashA)).logs
        = [.processingProposal 1 (deadbeefData.take 10),
           .unknownSelector (deadbeefData.take 10)]
    ∧ isProcessed (govHandleEvent 3 ⟨[], []⟩ ⟨200, 1, deadbeefData⟩ 210
        (fun _ => .success hashA)).db 1 (govCfg 3).chainKey (govCfg 3).evKind = false := by
  decide

/-- C5 (amended): when a confirmed, not-yet-processed `ProposalPassed` event
carries a selector other than `0x6b9a13e3`, the governance pipeline makes no
destination call and logs an entry identifying the unknown selector, but
writes no ProcessedMark and leaves the store unchanged — the proposal is
merely skipped for this pass (only the recovery pass's final cursor write
keeps recovery from re-scanning it). -/
theorem unknown_selector_logged_and_skipped (depth : Int) (db : DBState)
    (ev : GovEvent) (H : Int) (o : Nat → SubmitResult)
    (hconf : depth ≤ H - ev.blockNumber)
    (hnew : isProcessed db (jsNumber ev.proposalId)
        (govCfg depth).chainKey (govCfg depth).evKind = false)
    (hsel : ev.data.take 10 ≠ pauseSelector) :
    govHandleEvent depth db ev H o =
      { db := db, calls := [], sleepsMs := [],
        logs := [.processingProposal (jsNumber ev.proposalId) (ev.data.take 10),
                 .unknownSelector (ev.data.take 10)],
        cursorWrites := [] } := by
  have hc : ¬ (H - ev.blockNumber < depth) := by omega
  simp [govHandleEvent, hc, hnew, hsel]

/-- Witness for the amended C5 at the `0xdeadbeef...` proposal. -/
theorem unknown_selector_logged_and_skipped_witness :
    govHandleEvent 3 ⟨[], []⟩ ⟨200, 1, deadbeefData⟩ 210 (fun _ => .success hashA) =
      { db := ⟨[], []⟩, calls := [], sleepsMs := [],
        logs := [.processingProposal (jsNumber 1) (deadbeefData.take 10),
                 .unknownSelector (deadbeefData.take 10)],
        cursorWrites := [] } :=
  unknown_selector_logged_and_skipped 3 ⟨[], []⟩ ⟨200, 1, deadbeefData⟩ 210
    (fun _ => .success hashA) (by decide) (by decide) (by decide)

/-! ## C8 — recovery with no new events is (almost) a no-op -/

/-- C8: re-running a recovery pass when no new source events exist yields no
new ProcessedMarks and no destination calls: if the stored cursor is ≥ the
head the pass does nothing at all, and if the cursor is behind the head but
the range holds no events the pass performs only the final cursor upsert to
the head (which leaves the `processed_events` table untouched).  Both the
lock/burn pipelines and the governance pipeline behave this way. -/
theorem recover_no_new_events (cfg : ListenerCfg) (db : DBState) (H depth : Int)
    (o : EventLog → Nat → SubmitResult) (go : GovEvent → Nat → SubmitResult) :
    (getLastBlock db cfg.streamKey ≥ H →
      recoverMissedEvents cfg db H [] o =
        { db := db, calls := [], sleepsMs := [], logs := [], cursorWrites := [] })
    ∧ (getLastBlock db cfg.streamKey < H →
        recoverMissedEvents cfg db H [] o =
          { db := setLastBlock db cfg.streamKey H, calls := [], sleepsMs := [],
            logs := [.recoveryScan (getLastBlock db cfg.streamKey + 1) H],
            cursorWrites := [H] })
    ∧ (getLastBlock db (govCfg depth).streamKey ≥ H →
        govRecoverMissedEvents depth db H [] go =
          { db := db, calls := [], sleepsMs := [], logs := [], cursorWrites := [] })
    ∧ (getLastBlock db (govCfg depth).streamKey < H →
        govRecoverMissedEvents depth db H [] go =
          { db := setLastBlock db (govCfg depth).streamKey H, calls := [], sleepsMs := [],
            logs := [.recoveryScan (getLastBlock db (govCfg depth).streamKey + 1) H],
            cursorWrites := [H] })
    ∧ ∀ s b, (setLastBlock db s b).processed = db.processed := by
  refine ⟨?_, ?_, ?_, ?_, fun s b => rfl⟩
  · intro hge
    rw [recoverMissedEvents, if_pos hge]
  · intro hlt
    rw [recoverMissedEvents, if_neg (not_le.mpr hlt)]
    simp [processAll]
  · intro hge
    rw [govRecoverMissedEvents, if_pos hge]
  · intro hlt
    rw [govRecoverMissedEvents, if_neg (not_le.mpr hlt)]
    simp [govProcessAll]

/-- Witness for C8: cursor 7 at head 7 is a strict no-op; cursor 0 at head 7
performs only the cursor upsert. -/
theorem recover_no_new_events_witness :
    recoverMissedEvents (lockCfg 3) ⟨[], [((lockCfg 3).streamKey, 7)]⟩ 7 []
        (fun _ _ => .failure boomMsg) =
      { db := ⟨[], [((lockCfg 3).streamKey, 7)]⟩, calls := [], sleepsMs := [],
        logs := [], cursorWrites := [] } :=
  (recover_no_new_events (lockCfg 3) ⟨[], [((lockCfg 3).streamKey, 7)]⟩ 7 3
    (fun _ _ => .failure boomMsg) (fun _ _ => .failure boomMsg)).1 (by decide)

/-! ## C6 — cursor monotonicity -/

/-- The retry loop writes the cursor at most once, and only with the event's
block number. -/
lemma submitLoopAux_cursorWrites (cfg : ListenerCfg) (key : Nat) (b : Int)
    (o : Nat → SubmitResult) :
    ∀ r a db, (submitLoopAux cfg key b o a r db).cursorWrites = []
      ∨ (submitLoopAux cfg key b o a r db).cursorWrites = [b] := by
  intro r
  induction r with
  | zero => intro a db; left; rfl
  | succ n ih =>
      intro a db
      rw [submitLoopAux]
      cases o a with
      | success h => right; rfl
      | failure msg =>
          by_cases hn : n > 0
          · simpa [hn] using ih (a + 1) db
          · simp [hn]

/-- A single handler run writes the cursor at most once, and only with the
event's own block number. -/
lemma handleEvent_cursorWrites (cfg : ListenerCfg) (db : DBState) (ev : EventLog)
    (H : Int) (o : Nat → SubmitResult) :
    (handleEvent cfg db ev H o).cursorWrites = []
      ∨ (handleEvent cfg db ev H o).cursorWrites = [ev.blockNumber] := by
  rw [handleEvent]
  by_cases hc : H - ev.blockNumber < cfg.confirmationDepth
  · left; simp [hc]
  · by_cases hp : isProcessed db (jsNumber ev.nonce) cfg.chainKey cfg.evKind
    · left; simp [hc, hp]
    · simpa [hc, hp, submitLoop] using
        submitLoopAux_cursorWrites cfg (jsNumber ev.nonce) ev.blockNumber o
          MAX_RETRIES 1 db

/-- The cursor writes of the recovery event loop form a sublist of the event
block numbers, in order. -/
lemma processAll_cursorWrites_sublist (cfg : ListenerCfg) (H : Int)
    (o : EventLog → Nat → SubmitResult) :
    ∀ (events : List EventLog) (db : DBState),
      (processAll cfg db H o events).cursorWrites.Sublist
        (events.map fun e => e.blockNumber) := by
  intro events
  induction events with
  | nil => intro db; simp [processAll]
  | cons e rest ih =>
      intro db
      rw [processAll]
      simp only [List.map_cons]
      rcases handleEvent_cursorWrites cfg db e H (o e) with h | h
      · rw [h]
        simp only [List.nil_append]
        exact (ih _).cons _
      · rw [h]
        exact (ih _).cons₂ _

/-- Counterexample to C6: the invariant "a stream's cursor never decreases"
does not hold over all write sequences the code permits.  `setLastBlock` is an
unconditional upsert and the live `.on` handlers are independent async chains,
so two confirmed events at blocks 2 and 3 whose handler runs complete in the
order 3, 2 (e.g. the second event's destination transaction mines first)
write cursor 3 and then cursor 2 — a decrease on the same stream. -/
theorem cursor_decrease_counterexample :
    getLastBlock (handleEvent (lockCfg 3) ⟨[], []⟩ ⟨3, userU, 5, 1⟩ 10
        (fun _ => .success hashA)).db (lockCfg 3).streamKey = 3
    ∧ getLastBlock (handleEvent (lockCfg 3)
        (handleEvent (lockCfg 3) ⟨[], []⟩ ⟨3, userU, 5, 1⟩ 10
          (fun _ => .success hashA)).db
        ⟨2, userU, 5, 0⟩ 10 (fun _ => .success hashB)).db (lockCfg 3).streamKey = 2
    ∧ (2 : Int) < 3 := by
  decide

/-- C6 (amended): within a single recovery pass — whose events arrive in
ascending block order and lie between the stored cursor and the head, as
`queryFilter(C+1, H)` guarantees — the sequence of cursor values written (the
per-event success writes followed by the completion write to the head) never
decreases, and each write is ≥ the cursor value stored when the pass began;
moreover any single handler run can only write the handled event's own block
number.  The code does not enforce monotonicity beyond this: `setLastBlock`
upserts unconditionally, and live handlers completing out of block order can
write a lower cursor after a higher one (see the counterexample above). -/
theorem cursor_writes_monotone (cfg : ListenerCfg) (db : DBState) (H : Int)
    (events : List EventLog) (o : EventLog → Nat → SubmitResult)
    (hsort : (events.map fun e => e.blockNumber).Pairwise (· ≤ ·))
    (hlo : ∀ e ∈ events, getLastBlock db cfg.streamKey ≤ e.blockNumber)
    (hhi : ∀ e ∈ events, e.blockNumber ≤ H) :
    List.Chain (· ≤ ·) (getLastBlock db cfg.streamKey)
      (recoverMissedEvents cfg db H events o).cursorWrites
    ∧ ∀ db' (ev : EventLog) H' o' w,
        w ∈ (handleEvent cfg db' ev H' o').cursorWrites → w = ev.blockNumber := by
  constructor
  · set c0 := getLastBlock db cfg.streamKey with hc0
    rw [recoverMissedEvents]
    by_cases hge : c0 ≥ H
    · simp [← hc0, hge]
    · rw [if_neg (by simpa [← hc0] using hge)]
      have hsub := processAll_cursorWrites_sublist cfg H o events db
      have hmem : ∀ w ∈ (processAll cfg db H o events).cursorWrites,
          ∃ e ∈ events, w = e.blockNumber := by
        intro w hw
        have := hsub.subset hw
        simpa [eq_comm] using this
      rw [List.chain_iff_pairwise]
      simp only [List.pairwise_cons, List.mem_append, List.mem_singleton]
      constructor
      · intro w hw
        rcases hw with hw | rfl
        · obtain ⟨e, he, rfl⟩ := hmem w hw
          exact hlo e he
        · omega
      · rw [List.pairwise_append]
        refine ⟨hsort.sublist hsub, List.pairwise_singleton _ _, ?_⟩
        intro w hw x hx
        rw [List.mem_singleton] at hx
        subst hx
        obtain ⟨e, he, rfl⟩ := hmem w hw
        exact hhi e he
  · intro db' ev H' o' w hw
    rcases handleEvent_cursorWrites cfg db' ev H' o' with h | h <;> rw [h] at hw
    · cases hw
    · simpa using hw

/-- Witness for C6: recovery from cursor 0 over two successful events at
blocks 2 and 3 with head 10 writes the cursor 2, 3, then 10. -/
theorem cursor_writes_monotone_witness :
    List.Chain (· ≤ ·)
      (getLastBlock ⟨[], []⟩ (lockCfg 3).streamKey)
      (recoverMissedEvents (lockCfg 3) ⟨[], []⟩ 10
        [⟨2, userU, 5, 0⟩, ⟨3, userU, 5, 1⟩] (fun _ _ => .success hashA)).cursorWrites :=
  (cursor_writes_monotone (lockCfg 3) ⟨[], []⟩ 10
    [⟨2, userU, 5, 0⟩, ⟨3, userU, 5, 1⟩] (fun _ _ => .success hashA)
    (by decide) (by decide) (by decide)).1

/-! ## C9 — `Number(...)` nonce conversion: exact up to 2^53, lossy above -/

/-- C9: the listeners key their dedup on `Number(nonce)` (modelled by
`jsNumber`): the conversion is exact for every nonce ≤ 2^53, but there exist
distinct nonces above 2^53 that map to the same stored key, and the pipeline
then conflates the two events — after successfully processing the event with
nonce 2^53 + 3, the handler refuses the distinct event with nonce 2^53 + 4 as
already processed and makes no destination call. -/
theorem jsNumber_dedup_precision :
    (∀ n : Nat, n ≤ 2 ^ 53 → jsNumber n = n)
    ∧ (∃ n₁ n₂ : Nat, n₁ ≠ n₂ ∧ 2 ^ 53 < n₁ ∧ 2 ^ 53 < n₂ ∧ jsNumber n₁ = jsNumber n₂)
    ∧ (handleEvent (lockCfg 3)
        (handleEvent (lockCfg 3) ⟨[], []⟩ ⟨1, userU, 5, 2 ^ 53 + 3⟩ 10
          (fun _ => .success hashA)).db
        ⟨2, userU, 5, 2 ^ 53 + 4⟩ 10 (fun _ => .success hashB)).calls = []
    ∧ (handleEvent (lockCfg 3)
        (handleEvent (lockCfg 3) ⟨[], []⟩ ⟨1, userU, 5, 2 ^ 53 + 3⟩ 10
          (fun _ => .success hashA)).db
        ⟨2, userU, 5, 2 ^ 53 + 4⟩ 10 (fun _ => .success hashB)).logs
        = [.alreadyProcessed (jsNumber (2 ^ 53 + 4))]
    ∧ (2 ^ 53 + 3 : Nat) ≠ 2 ^ 53 + 4 := by
  refine ⟨?_, ⟨2 ^ 53 + 3, 2 ^ 53 + 4, by decide, by decide, by decide, by decide⟩,
    by decide, by decide, by decide⟩
  intro n hn
  rcases lt_or_eq_of_le hn with hlt | heq
  · rw [jsNumber.eq_def, if_pos hlt]
  · subst heq
    decide

/-- Witness for C9: the conversion is exact at a small nonce. -/
theorem jsNumber_dedup_precision_witness : jsNumber 42 = 42 :=
  jsNumber_dedup_precision.1 42 (by norm_num)

/-! ## C10 — the live path cannot hit the "not yet confirmed" branch -/

/-- The retry loop never logs "not yet confirmed". -/
lemma submitLoopAux_no_notYetConfirmed (cfg : ListenerCfg) (key : Nat) (b : Int)
    (o : Nat → SubmitResult) :
    ∀ r a db k, LogEntry.notYetConfirmed k ∉ (submitLoopAux cfg key b o a r db).logs := by
  intro r
  induction r with
  | zero => intro a db k; simp [submitLoopAux]
  | succ n ih =>
      intro a db k
      rw [submitLoopAux]
      cases o a with
      | success h => simp
      | failure msg =>
          by_cases hn : n > 0
          · simpa [hn] using ih (a + 1) db k
          · simp [hn]

/-- A handler invoked with a head at least `D` past the event block never logs
"not yet confirmed". -/
lemma handleEvent_no_notYetConfirmed (cfg : ListenerCfg) (db : DBState)
    (ev : EventLog) (H : Int) (o : Nat → SubmitResult) (k : Nat)
    (hconf : cfg.confirmationDepth ≤ H - ev.blockNumber) :
    LogEntry.notYetConfirmed k ∉ (handleEvent cfg db ev H o).logs := by
  have hc : ¬ (H - ev.blockNumber < cfg.confirmationDepth) := by omega
  rw [handleEvent]
  by_cases hp : isProcessed db (jsNumber ev.nonce) cfg.chainKey cfg.evKind
  · simp [hc, hp]
  · simpa [hc, hp, submitLoop] using
      submitLoopAux_no_notYetConfirmed cfg (jsNumber ev.nonce) ev.blockNumber o
        MAX_RETRIES 1 db k

/-- C10: whenever `_waitForConfirmation` hands an event to `_handleEvent`, the
head it passes satisfies `head ≥ eventBlock + D`, so on the live-subscription
path the handler's "not yet confirmed" early return is unreachable: the
result came from a confirmed head and its log never contains that entry. -/
theorem live_path_always_confirmed (cfg : ListenerCfg) (heads : Nat → Int)
    (db : DBState) (ev : EventLog) (o : Nat → SubmitResult) (fuel i : Nat)
    (r : HandleResult)
    (h : waitForConfirmation cfg heads db ev o fuel i = some r) :
    (∃ hb : Int, ev.blockNumber + cfg.confirmationDepth ≤ hb
      ∧ r = handleEvent cfg db ev hb o)
    ∧ ∀ k, LogEntry.notYetConfirmed k ∉ r.logs := by
  induction fuel generalizing i with
  | zero => cases h
  | succ n ih =>
      rw [waitForConfirmation] at h
      by_cases hc : heads i ≥ ev.blockNumber + cfg.confirmationDepth
      · rw [if_pos hc] at h
        have hr : r = handleEvent cfg db ev (heads i) o := by
          cases h
          rfl
        subst hr
        exact ⟨⟨heads i, hc, rfl⟩,
          fun k => handleEvent_no_notYetConfirmed cfg db ev (heads i) o k (by omega)⟩
      · rw [if_neg hc] at h
        exact ih (i + 1) h

/-- Witness for C10: a single poll at head 10 releases the event at block 1
(depth 3) and the resulting log has no "not yet confirmed" entry. -/
theorem live_path_always_confirmed_witness :
    LogEntry.notYetConfirmed 0 ∉
      (handleEvent (lockCfg 3) ⟨[], []⟩ ⟨1, userU, 100, 0⟩ 10
        (fun _ => .success hashA)).logs :=
  (live_path_always_confirmed (lockCfg 3) (fun _ => 10) ⟨[], []⟩ ⟨1, userU, 100, 0⟩
    (fun _ => .success hashA) 1 0
    (handleEvent (lockCfg 3) ⟨[], []⟩ ⟨1, userU, 100, 0⟩ 10 (fun _ => .success hashA))
    (by decide)).2 0

end Bridge








